import Mathlib

/-!
Verification of the craybond kernel sources.

Shallow embedding of the C sources under scrutiny:
  * src/kernel/ram_e.c               (talloc / temp_free / palloc)
  * src/kernel/process/scheduler.c   (switch_proc / relocate_code / create_process)
  * src/kernel/mmu.c                 (mmu_map_2mb / mmu_map_4kb descriptors)
  * src/kernel/process/syscall.c     (sync_el0_handler_c)
  * src/kernel/graph/drivers/virtio_gpu_pci/virtio_gpu_pci_driver.c (vgp_init)

Machine integers are modelled as `Nat` with explicit reduction `% 2 ^ 64`
(or `% 2 ^ 32`) exactly where the C performs modular arithmetic; signed C
integers are interpreted through the two's-complement reading `sext`.
-/

namespace Craybond

/-- Two's-complement interpretation of the low `w` bits of a natural number:
the signed value represented by a `w`-bit pattern. -/
def sext (w x : Nat) : Int :=
  let r : Nat := x % 2 ^ w
  if r < 2 ^ (w - 1) then (r : Int) else (r : Int) - 2 ^ w

/-- Conversion of a mathematical integer to its `uint64` value
(reduction modulo `2 ^ 64`), as performed by C integer conversions. -/
def u64ofInt (z : Int) : Nat := (z % (2 ^ 64)).toNat

/-- The `uint64` difference `a - b` (wrap-around subtraction); this is also
the two's-complement bit pattern of the C expression `(int64_t)(a - b)`. -/
def usub64 (a b : Nat) : Nat := u64ofInt ((a : Int) - (b : Int))

/-- Arithmetic shift right by `k` of a 64-bit pattern: reinterpret as a signed
value, floor-divide by `2 ^ k`, and return the resulting 64-bit pattern. -/
def asr64 (x k : Nat) : Nat := u64ofInt ((sext 64 x).fdiv (2 ^ k))

/-- Arithmetic shift right by `k` of a 32-bit pattern (C `int32_t` shift). -/
def asr32 (x k : Nat) : Nat := (((sext 32 (x % 2 ^ 32)).fdiv (2 ^ k)) % (2 ^ 32)).toNat

/-! ### src/kernel/ram_e.c — bump allocators and the transient free list

Linker-provided bounds (`heap_bottom`, `heap_limit`) are parameters of the
model.  The transient free list — in C a singly linked list of
`FreeBlock { next, size }` headers written into the freed blocks themselves —
is modelled as the list of `(address, size)` pairs in list order from
`temp_free_list`; the operations below touch it exactly as the C walks and
relinks it.
-/

/-- The size rounding `size = (size + 0xFFF) & ~0xFFF` performed (on
`uint64_t`) at the top of `talloc`, `temp_free` and `palloc`. -/
def round4k (s : Nat) : Nat := ((s + 0xFFF) % 2 ^ 64) / 0x1000 * 0x1000

/-- State of the two bump allocators of ram_e.c: the two bump pointers
`next_free_temp_memory` / `next_free_perm_memory` and the transient free
list (first component = address of the block, second = its stored size). -/
structure RamState where
  next_free_temp_memory : Nat
  next_free_perm_memory : Nat
  temp_free_list : List (Nat × Nat)
  deriving DecidableEq, Repr

/-- Initial allocator state (ram_e.c lines 110-111):
`next_free_temp_memory = heap_bottom`,
`next_free_perm_memory = temp_start = heap_bottom + 0x500000`,
empty free list. -/
def ramInit (heap_bottom : Nat) : RamState :=
  { next_free_temp_memory := heap_bottom
    next_free_perm_memory := heap_bottom + 0x500000
    temp_free_list := [] }

/-- The free-list walk of `talloc`: first block with `size ≥` the request is
unlinked and its address returned (first-fit), exactly as the
`while (*curr)` loop with `curr = &temp_free_list` does. -/
def findFit : List (Nat × Nat) → Nat → Option (Nat × List (Nat × Nat))
  | [], _ => none
  | (p, bs) :: rest, size =>
      if bs ≥ size then
        some (p, rest)
      else
        match findFit rest size with
        | none => none
        | some (q, rest') => some (q, (p, bs) :: rest')

/-- `talloc(size)` (ram_e.c lines 118-155).  Returns `none` on the panic path
("Temporary allocator overflow"), otherwise the returned address and the new
state.  `temp_start = heap_bottom + 0x500000` is the upper bound of the
transient region.  The overflow comparison and the bump are `uint64_t`
arithmetic, so both sums are reduced modulo `2 ^ 64`: a request large enough
to wrap the sum slips past the C's check. -/
def talloc (heap_bottom : Nat) (st : RamState) (size : Nat) : Option (Nat × RamState) :=
  let size := round4k size
  match findFit st.temp_free_list size with
  | some (p, rest) => some (p, { st with temp_free_list := rest })
  | none =>
      if (st.next_free_temp_memory + size) % 2 ^ 64 > (heap_bottom + 0x500000) % 2 ^ 64 then
        none
      else
        some (st.next_free_temp_memory,
          { st with next_free_temp_memory := (st.next_free_temp_memory + size) % 2 ^ 64 })

/-- `temp_free(ptr, size)` (ram_e.c lines 157-176): round the size, write a
`FreeBlock { next = temp_free_list, size }` header at `ptr` and make it the
new list head. -/
def temp_free (st : RamState) (ptr size : Nat) : RamState :=
  let size := round4k size
  { st with temp_free_list := (ptr, size) :: st.temp_free_list }

/-- `palloc(size)` (ram_e.c lines 182-194): align the bump pointer up to 4 KiB,
check `next_free_perm_memory + aligned_size > heap_limit` (panic path →
`none`), then bump.  As in `talloc`, the comparison's sum and the bump are
`uint64_t` arithmetic and wrap modulo `2 ^ 64`. -/
def palloc (heap_limit : Nat) (st : RamState) (size : Nat) : Option (Nat × RamState) :=
  let aligned_size := round4k size
  let next := (st.next_free_perm_memory + 0xFFF) % 2 ^ 64 / 0x1000 * 0x1000
  if (next + aligned_size) % 2 ^ 64 > heap_limit then
    none
  else
    some (next, { st with next_free_perm_memory := (next + aligned_size) % 2 ^ 64 })

/-- One allocator call, for reasoning about call sequences: the three
operations a client can issue against ram_e.c's allocators. -/
inductive AllocOp where
  | top_talloc (size : Nat)
  | top_temp_free (ptr size : Nat)
  | top_palloc (size : Nat)
  deriving DecidableEq, Repr

/-- Result of one allocator call: the (possibly absent) returned address and
the new state; `none` is the panic path. -/
def allocStep (heap_bottom heap_limit : Nat) (st : RamState) :
    AllocOp → Option (Option (Bool × Nat × Nat) × RamState)
  | .top_talloc size =>
      match talloc heap_bottom st size with
      | none => none
      | some (a, st') => some (some (true, a, round4k size), st')
  | .top_temp_free ptr size => some (none, temp_free st ptr size)
  | .top_palloc size =>
      match palloc heap_limit st size with
      | none => none
      | some (a, st') => some (some (false, a, round4k size), st')

/-- Run a sequence of allocator calls from a state, collecting for every
completed allocation a triple `(isTransient, address, roundedSize)`;
`none` when some call panics. -/
def allocRun (heap_bottom heap_limit : Nat) (st : RamState) :
    List AllocOp → Option (List (Bool × Nat × Nat) × RamState)
  | [] => some ([], st)
  | op :: ops =>
      match allocStep heap_bottom heap_limit st op with
      | none => none
      | some (r, st') =>
          match allocRun heap_bottom heap_limit st' ops with
          | none => none
          | some (rs, stf) =>
              match r with
              | none => some (rs, stf)
              | some t => some (t :: rs, stf)

/-! ### src/kernel/process/scheduler.c — process table and scheduler -/

/-- Process states (src/shared/process.h). -/
inductive ProcState where
  | READY
  | RUNNING
  | BLOCKED
  deriving DecidableEq, Repr, Inhabited

/-- The fields of `process_t` (src/shared/process.h) that `switch_proc` and
`create_process` read or write.  The 31 saved general-purpose registers of
the C struct are not touched by either function and are omitted. -/
structure process_t where
  sp : Nat
  pc : Nat
  spsr : Nat
  id : Nat
  state : ProcState
  deriving DecidableEq, Repr, Inhabited

/-- Scheduler globals (scheduler.c lines 12-15): the fixed table
`processes[MAX_PROCS]`, `current_proc` and `proc_count`, `MAX_PROCS = 16`. -/
structure SchedState where
  processes : List process_t
  current_proc : Nat
  proc_count : Nat
  deriving DecidableEq, Repr

def MAX_PROCS : Nat := 16

/-- The `while (processes[next_proc].state != READY)` walk of `switch_proc`
(scheduler.c lines 35-39), with explicit fuel.  Outcomes: `some (some n)` =
a READY entry `n` was found; `some none` = the walk came back to
`current_proc` and the function returns without switching; `none` = the fuel
ran out, modelling the C loop not terminating (possible only when
`current_proc` lies outside `[0, proc_count)` and no entry is READY). -/
def switchWalk (st : SchedState) : Nat → Nat → Option (Option Nat)
  | _, 0 => none
  | next_proc, fuel + 1 =>
      if (st.processes.getD next_proc default).state = ProcState.READY then
        some (some next_proc)
      else
        let next' := (next_proc + 1) % st.proc_count
        if next' = st.current_proc then
          some none
        else
          switchWalk st next' fuel

/-- One execution of `switch_proc` (scheduler.c lines 25-43).  The calls to
`save_context`/`restore_context` are assembly that moves CPU registers to and
from the chosen record; they do not write the scheduler globals, so the
function's whole effect on this state is the update of `current_proc`. -/
def switch_proc (st : SchedState) : Option SchedState :=
  if st.proc_count = 0 then
    some st
  else
    match switchWalk st ((st.current_proc + 1) % st.proc_count) (st.proc_count + 1) with
    | none => none
    | some none => some st
    | some (some n) => some { st with current_proc := n }

/-- Repeated invocation of `switch_proc`, collecting the value of
`current_proc` after each invocation (empty tail on the non-terminating
outcome, which cannot arise under the hypotheses used below). -/
def iterSwitch (st : SchedState) : Nat → List Nat
  | 0 => []
  | n + 1 =>
      match switch_proc st with
      | none => []
      | some st' => st'.current_proc :: iterSwitch st' n

/-- The `stack_size` local of `create_process` (scheduler.c line 181). -/
def stack_size : Nat := 0x1000

/-- `create_process` (scheduler.c lines 154-196).  The three
`alloc_proc_mem` results (data page, code region, stack) are passed in as
`data_dest`, `code_dest`, `stack`; `alloc_proc_mem` returns `0` when no free
user-RAM range exists (proc_allocator.c line 142), and `create_process`
checks each result against null before continuing.  The byte copy of the
data blob and the `relocate_code` call write only into the freshly allocated
user-RAM pages, never into the `processes` table, so they do not appear in
this state transition.  Returns the new scheduler state and the record
stored in the table (`none` on the four early-return paths). -/
def create_process (st : SchedState) (data_dest code_dest stack : Nat) :
    SchedState × Option process_t :=
  if st.proc_count ≥ MAX_PROCS then (st, none)
  else if data_dest = 0 then (st, none)
  else if code_dest = 0 then (st, none)
  else if stack = 0 then (st, none)
  else
    let proc : process_t :=
      { sp := (stack + stack_size) % 2 ^ 64
        pc := code_dest % 2 ^ 64
        spsr := 0
        id := st.proc_count
        state := ProcState.READY }
    ({ st with
        processes := st.processes.set st.proc_count proc
        proc_count := st.proc_count + 1 },
      some proc)

/-! ### scheduler.c `relocate_code` (lines 45-152) — branch and ADRP rewriting

The function walks the source blob as 32-bit words.  Word index `i` is a
`uint32_t`, so `i * 4` is reduced modulo `2 ^ 32` before being added to the
64-bit base addresses.  C idioms are transcribed as follows:
`((int32_t)v << 6) >> 6` = reduce `v <<< 6` modulo `2 ^ 32`, read as a signed
32-bit value, arithmetically shift right (floor-divide by 64);
`(int64_t)(a - b)` for `uint64_t` operands = the wrap-around difference
`usub64 a b` read back through `sext 64` where its signed value is needed;
`rel & mask` on a signed value = `&&&` on its two's-complement pattern.
-/

/-- The body of the relocation loop (scheduler.c lines 62-148) for word index
`i` holding `instr`: returns the word written to `dst32[i]`. -/
def relocate_instr (src_base dst_base size src_data_base dst_data_base data_size i instr : Nat) :
    Nat :=
  let i4 : Nat := (4 * i) % 2 ^ 32
  let op := instr >>> 26
  if op = 5 ∨ op = 37 then
    -- B / BL: int32_t offset = ((int32_t)instr << 6) >> 6; offset *= 4;
    let offset : Int := (sext 32 ((instr <<< 6) % 2 ^ 32)).fdiv (2 ^ 6) * 4
    let target : Nat := u64ofInt ((src_base : Int) + i4 + offset)
    if src_base ≤ target ∧ target < (src_base + size) % 2 ^ 64 then
      instr
    else
      -- int64_t rel = (int64_t)(target - (dst_base + i*4)) >> 2;
      let rel_bits : Nat := asr64 (usub64 target ((dst_base + i4) % 2 ^ 64)) 2
      (instr &&& 0xFC000000) ||| (rel_bits &&& 0x03FFFFFF)
  else if instr >>> 24 = 84 then
    -- B.cond: int32_t offset = ((int32_t)(instr >> 5) & 0x7FFFF);
    --         offset = (offset << 6) >> 6; offset *= 4;
    let offset : Int :=
      (sext 32 ((((instr >>> 5) &&& 0x7FFFF) <<< 6) % 2 ^ 32)).fdiv (2 ^ 6) * 4
    let target : Nat := u64ofInt ((src_base : Int) + i4 + offset)
    if src_base ≤ target ∧ target < (src_base + size) % 2 ^ 64 then
      instr
    else
      -- int32_t rel = (int32_t)(target - (dst_base + i*4)) >> 2;
      -- instr = (instr & ~0xFFFFE0) | ((rel & 0x7FFFF) << 5);
      let rel_bits : Nat := asr32 (usub64 target ((dst_base + i4) % 2 ^ 64)) 2
      (instr &&& 0xFF00001F) ||| ((rel_bits &&& 0x7FFFF) <<< 5)
  else if instr &&& 0x9F000000 = 0x90000000 then
    -- ADRP
    let immlo := (instr >>> 29) &&& 0x3
    let immhi := (instr >>> 5) &&& 0x7FFFF
    -- int64_t offset = ((int64_t)((immhi << 14) | (immlo << 12)) << 43) >> 43;
    let offset : Int :=
      (sext 64 ((((immhi <<< 14) ||| (immlo <<< 12)) <<< 43) % 2 ^ 64)).fdiv (2 ^ 43)
    -- uint64_t pc_page = (src_base + i * 4) & ~0xFFFULL;
    let pc_page : Nat := ((src_base + i4) % 2 ^ 64) &&& 0xFFFFFFFFFFFFF000
    let target : Nat := u64ofInt ((pc_page : Int) + offset)
    if src_data_base ≤ target ∧ target < (src_data_base + data_size) % 2 ^ 64 then
      let data_offset : Nat := usub64 target src_data_base
      let new_target : Nat := (dst_data_base + data_offset) % 2 ^ 64
      let dst_pc_page : Nat := ((dst_base + i4) % 2 ^ 64) &&& 0xFFFFFFFFFFFFF000
      -- int64_t new_offset = (int64_t)(new_target - dst_pc_page);
      let new_offset_bits : Nat := usub64 new_target dst_pc_page
      let new_immhi := (new_offset_bits >>> 14) &&& 0x7FFFF
      let new_immlo := (new_offset_bits >>> 12) &&& 0x3
      let instr1 := (instr &&& 0x9FFFFFFF) ||| ((new_immlo <<< 29) % 2 ^ 32)
      (instr1 &&& 0xFF00001F) ||| ((new_immhi <<< 5) % 2 ^ 32)
    else
      instr
  else
    instr

/-- `relocate_code(dst, src, size, src_data_base, dst_data_base, data_size)`
(scheduler.c lines 45-152): the destination buffer after the loop, with
`words` the 32-bit words of the source blob and `count = size / 4`. -/
def relocate_code (dst_base src_base : Nat) (words : List Nat)
    (size src_data_base dst_data_base data_size : Nat) : List Nat :=
  (List.range (size / 4)).map fun i =>
    relocate_instr src_base dst_base size src_data_base dst_data_base data_size i
      (words.getD i 0)

/-- Stated from the spec for comparison (§4.6 table, B.cond row: detection
`top 8 bits == 0b01010100`, immediate `signed 19-bit ×4 at bits[23:5]`): the
absolute branch target of a B.cond word at index `i` of the source blob. -/
def spec_bcond_target (src_base i instr : Nat) : Int :=
  (src_base : Int) + 4 * i + sext 19 ((instr >>> 5) &&& 0x7FFFF) * 4

/-- Stated from the spec for comparison (§4.6 table, ADRP row: immediate
`{immhi[20:5], immlo[30:29]} << 12, sign-extended from 21 bits`): the byte
offset encoded by an ADRP word. -/
def spec_adrp_offset (instr : Nat) : Int :=
  sext 21 ((((instr >>> 5) &&& 0x7FFFF) <<< 2) ||| ((instr >>> 29) &&& 0x3)) * 0x1000

/-- Stated from the spec for comparison: the page-relative target `P` of an
ADRP word at index `i` of the source blob (`target = PC page + offset`). -/
def spec_adrp_target (src_base i instr : Nat) : Int :=
  ((src_base + 4 * i) / 0x1000 * 0x1000 : Nat) + spec_adrp_offset instr

/-! ### src/kernel/mmu.c — page-table descriptors

`mmu_map_2mb` (lines 34-63) and `mmu_map_4kb` (lines 66-119) walk/create the
intermediate tables and then install one terminal descriptor; the claims
under scrutiny are about the installed descriptor's bit pattern, reproduced
here verbatim from the `attr` computations.
-/

/-- The L3 block descriptor installed by `mmu_map_2mb` (mmu.c lines 61-62):
`attr = (0 << 54) | (0 << 53) | PD_ACCESS | (0b11 << 8) | (0b00 << 6) |
(attr_index << 2) | PD_BLOCK` and the entry is `(pa & 0xFFFFFFFFF000) | attr`
(`PD_ACCESS = 1 << 10`, `PD_BLOCK = 0b01`; `attr_index` is `uint64_t`, so
its shift is reduced modulo `2 ^ 64`). -/
def mmu_map_2mb_descriptor (pa attr_index : Nat) : Nat :=
  let attr := (0 <<< 54) ||| (0 <<< 53) ||| (1 <<< 10) ||| (3 <<< 8) ||| (0 <<< 6) |||
    ((attr_index <<< 2) % 2 ^ 64) ||| 1
  (pa &&& 0xFFFFFFFFF000) ||| attr

/-- The `permission` chosen by the `switch (level)` of `mmu_map_4kb`
(mmu.c lines 105-113); the C leaves it uninitialized for levels other than
0, 1, 2 (the theorems below only cover levels 0-2). -/
def mmu_4kb_permission (level : Nat) : Nat :=
  match level with
  | 0 => 1
  | 1 => 0
  | 2 => 2
  | _ => 0

/-- The L4 page descriptor installed by `mmu_map_4kb` (mmu.c lines 114-118):
`attr = ((level == 1) << 54) | (0 << 53) | PD_ACCESS | (0b11 << 8) |
(permission << 6) | (attr_index << 2) | 0b11`, entry
`(pa & 0xFFFFFFFFF000) | attr`.  (The C shifts the `int` expression
`(level == 1)` by 54; per the adjacent source comment
`54 = UXN level | 53 = PXN !level` we read it as the documented 64-bit UXN
bit.) -/
def mmu_map_4kb_descriptor (pa attr_index level : Nat) : Nat :=
  let attr := ((if level = 1 then 1 else 0) <<< 54) ||| (0 <<< 53) ||| (1 <<< 10) |||
    (3 <<< 8) ||| (mmu_4kb_permission level <<< 6) ||| ((attr_index <<< 2) % 2 ^ 64) ||| 3
  (pa &&& 0xFFFFFFFFF000) ||| attr

/-! ### src/kernel/process/syscall.c — EL0 synchronous (SVC) handler -/

/-- Externally visible actions of the kernel during one EL0 SVC dispatch. -/
inductive KernelEffect where
  | uartOut (s : String)
  | printfArgsRaw (fmt args argc : Nat)
  | panicked (msg : String)
  deriving DecidableEq, Repr

/-- Whether an effect is a kernel panic. -/
def isPanicEffect : KernelEffect → Bool
  | KernelEffect.panicked _ => true
  | _ => false

/-- `sync_el0_handler_c` (syscall.c lines 13-66), as the list of its effects
given the register values at entry: it unconditionally emits
`uart_raw_puts("Hello")`, then calls `printf_args_raw(x0, x1, x2)` exactly
when `x8 == 3`, and returns via `eret`.  (All other statements in the
function body are commented out in the source.) -/
def sync_el0_handler_c (x0 x1 x2 x8 : Nat) : List KernelEffect :=
  [KernelEffect.uartOut "Hello"] ++
    (if x8 = 3 then [KernelEffect.printfArgsRaw x0 x1 x2] else [])

/-! ### virtio_gpu_pci_driver.c — `vgp_init` and `vgp_get_display_info` -/

/-- One scanout record of the GET_DISPLAY_INFO response
(`struct virtio_gpu_display_one`; the `flags`, `x`, `y` fields are never read
by the driver and are omitted). -/
structure virtio_gpu_display_one where
  enabled : Nat
  width : Nat
  height : Nat
  deriving DecidableEq, Repr

/-- Driver statics (virtio_gpu_pci_driver.c lines 184-190). -/
structure GpuState where
  display_width : Nat
  display_height : Nat
  scanout_id : Nat
  scanout_found : Bool
  default_width : Nat
  default_height : Nat
  deriving DecidableEq, Repr

/-- Initial values of the driver statics: `display_width = 800`,
`display_height = 600`, `scanout_id = 0`, `scanout_found = false`
(`default_width`/`default_height` are zero-initialized statics). -/
def gpuInit : GpuState :=
  { display_width := 800
    display_height := 600
    scanout_id := 0
    scanout_found := false
    default_width := 0
    default_height := 0 }

/-- The virtio-gpu commands `vgp_init` can issue, in issue order. -/
inductive GpuCmd where
  | GET_DISPLAY_INFO
  | RESOURCE_CREATE_2D
  | RESOURCE_ATTACH_BACKING
  | SET_SCANOUT
  | TRANSFER_TO_HOST_2D
  | RESOURCE_FLUSH
  deriving DecidableEq, Repr

/-- The scanout loop of `vgp_get_display_info` (lines 390-402): first index
whose mode reports `enabled` non-zero, together with that mode. -/
def scanScanouts : List virtio_gpu_display_one → Nat → Option (Nat × virtio_gpu_display_one)
  | [], _ => none
  | m :: rest, i => if m.enabled ≠ 0 then some (i, m) else scanScanouts rest (i + 1)

/-- `vgp_get_display_info` (lines 367-409), parameterized by the device's
GET_DISPLAY_INFO response (`pmodes`, 16 records): on the first enabled
scanout it records its width/height/index and sets `scanout_found`;
otherwise it clears `scanout_found` and returns false (the write of the
default size into `resp->pmodes[0]` goes to the response buffer, not to the
driver state). -/
def vgp_get_display_info (st : GpuState) (pmodes : List virtio_gpu_display_one) :
    GpuState × Bool :=
  match scanScanouts (pmodes.take 16) 0 with
  | some (i, m) =>
      ({ st with
          display_width := m.width
          display_height := m.height
          scanout_id := i
          scanout_found := true }, true)
  | none => ({ st with scanout_found := false }, false)

/-- Outcome of `vgp_init`: final driver state, the sequence of virtio-gpu
commands issued, the size passed to the framebuffer `palloc`
(`none` when the device is absent and no allocation happens), and the
boolean return value. -/
structure VgpOutcome where
  state : GpuState
  cmds : List GpuCmd
  fb_alloc : Option Nat
  ret : Bool
  deriving DecidableEq, Repr

/-- `vgp_init(width, height)` (lines 673-719), parameterized by whether
`find_pci_device` found the device and by the device's GET_DISPLAY_INFO
response.  When the device is present it runs capability/queue bring-up,
issues GET_DISPLAY_INFO, allocates the framebuffer
(`framebuffer_size = display_width * display_height * (32/8)` with the
values left by `vgp_get_display_info`), issues RESOURCE_CREATE_2D,
RESOURCE_ATTACH_BACKING, TRANSFER_TO_HOST_2D, then `vgp_flush` (which itself
issues TRANSFER_TO_HOST_2D and RESOURCE_FLUSH), and finally SET_SCANOUT
exactly when `scanout_found` is set. -/
def vgp_init (width height : Nat) (device_present : Bool)
    (pmodes : List virtio_gpu_display_one) : VgpOutcome :=
  let st0 : GpuState := { gpuInit with default_width := width, default_height := height }
  if device_present then
    let st1 := (vgp_get_display_info st0 pmodes).1
    let fb_size := st1.display_width * st1.display_height * (32 / 8)
    { state := st1
      cmds := [GpuCmd.GET_DISPLAY_INFO, GpuCmd.RESOURCE_CREATE_2D,
        GpuCmd.RESOURCE_ATTACH_BACKING, GpuCmd.TRANSFER_TO_HOST_2D,
        GpuCmd.TRANSFER_TO_HOST_2D, GpuCmd.RESOURCE_FLUSH] ++
        (if st1.scanout_found then [GpuCmd.SET_SCANOUT] else [])
      fb_alloc := some fb_size
      ret := true }
  else
    { state := st0, cmds := [], fb_alloc := none, ret := false }

/-! ### Definitions used by the claim statements -/

/-- Stated from the spec for comparison (§4.3): the L3 block descriptor the
spec prescribes for `map_2mb`:
`(pa & ~0xFFF) | UXN | AF | SH=InnerShareable(0b11) | AP=0 |
AttrIdx=attr_idx | 0b01` (UXN = bit 54, AF = bit 10). -/
def spec_map_2mb_descriptor (pa attr_idx : Nat) : Nat :=
  (pa &&& 0xFFFFFFFFFFFFF000) ||| (1 <<< 54) ||| (1 <<< 10) ||| (3 <<< 8) ||| (0 <<< 6) |||
    (attr_idx <<< 2) ||| 1

/-- Stated from the spec for comparison (§4.3): the L4 page descriptor the
spec prescribes for `map_4kb`:
`(pa & ~0xFFF) | (level==1 ? UXN : 0) | AF | SH=0b11 | AP=perm |
AttrIdx=attr_idx | 0b11` with
`perm = { EL0(0): 0b01, EL1(1): 0b00, Shared(2): 0b10 }` and PXN clear. -/
def spec_map_4kb_descriptor (pa attr_idx level : Nat) : Nat :=
  (pa &&& 0xFFFFFFFFFFFFF000) ||| ((if level = 1 then 1 else 0) <<< 54) ||| (1 <<< 10) |||
    (3 <<< 8) ||| ((if level = 0 then 1 else if level = 1 then 0 else 2) <<< 6) |||
    (attr_idx <<< 2) ||| 3

/-- Discipline on allocator arguments under which the allocator invariants
hold: a freed block is 4 KiB-aligned and lies below the transient region's
upper bound (every block actually handed out by `talloc` satisfies this),
and every requested size is small enough that the C's 64-bit overflow
comparison cannot wrap around (`region bound + rounded size < 2 ^ 64`) —
without the latter, a huge request slips past the wrapped comparison,
returns without panicking, and wraps the bump pointer. -/
def AllocOpOk (heap_bottom heap_limit : Nat) : AllocOp → Prop
  | AllocOp.top_talloc size => heap_bottom + 0x500000 + round4k size < 2 ^ 64
  | AllocOp.top_temp_free p s => p % 4096 = 0 ∧ p + round4k s ≤ heap_bottom + 0x500000
  | AllocOp.top_palloc size => heap_limit + 0xFFF + round4k size < 2 ^ 64

/-- Allocator-state invariant: the transient bump pointer is 4 KiB-aligned
and has not passed its upper bound `heap_bottom + 0x500000`, the permanent
bump pointer has not passed `heap_limit`, and every free-list block is
4 KiB-aligned and contained in the transient region. -/
def RamWF (heap_bottom heap_limit : Nat) (st : RamState) : Prop :=
  st.next_free_temp_memory % 4096 = 0 ∧
  st.next_free_temp_memory ≤ heap_bottom + 0x500000 ∧
  st.next_free_perm_memory ≤ heap_limit ∧
  ∀ b ∈ st.temp_free_list, b.1 % 4096 = 0 ∧ b.1 + b.2 ≤ heap_bottom + 0x500000

/-! ### Basic facts about `sext` and `u64ofInt` -/

theorem u64ofInt_ofNat (n : Nat) (h : n < 2 ^ 64) : u64ofInt (n : Int) = n := by
  unfold u64ofInt
  have h1 : (n : Int) % (2 ^ 64) = (n : Int) :=
    Int.emod_eq_of_lt (by positivity) (by exact_mod_cast h)
  rw [h1]
  simp

/-- Round-trip: reducing an integer `d` with `-2^(w-1) ≤ d < 2^(w-1)` modulo
`2 ^ w` and sign-extending the result from `w` bits recovers `d`. -/
theorem sext_emod (w : Nat) (hw : 0 < w) (d : Int)
    (h1 : -(2 ^ (w - 1)) ≤ d) (h2 : d < 2 ^ (w - 1)) :
    sext w ((d % (2 ^ w)).toNat) = d := by
  have hT : (0 : Int) < 2 ^ w := by positivity
  have hpow : (2 : Int) ^ w = 2 * 2 ^ (w - 1) := by
    conv_lhs => rw [show w = (w - 1) + 1 by omega]
    rw [pow_succ]
    ring
  set m : Int := d % (2 ^ w) with hm
  have hm0 : 0 ≤ m := Int.emod_nonneg d (ne_of_gt hT)
  have hm1 : m < 2 ^ w := Int.emod_lt_of_pos d hT
  have hx : ((m.toNat : Nat) : Int) = m := Int.toNat_of_nonneg hm0
  have hxw : m.toNat < 2 ^ w := by
    have h' : ((m.toNat : Nat) : Int) < ((2 ^ w : Nat) : Int) := by
      rw [hx]
      push_cast
      exact hm1
    exact_mod_cast h'
  have hcase : m = d ∨ m = d + 2 ^ w := by
    rcases le_or_lt 0 d with hd | hd
    · left
      exact Int.emod_eq_of_lt hd (by omega)
    · right
      have hshift : (d + 2 ^ w) % (2 ^ w) = d % (2 ^ w) := by
        have h' := @Int.add_mul_emod_self_left d (2 ^ w) 1
        simp only [mul_one] at h'
        exact h'
      rw [hm, ← hshift, Int.emod_eq_of_lt (by omega) (by omega)]
  unfold sext
  simp only [Nat.mod_eq_of_lt hxw]
  by_cases hlt : m.toNat < 2 ^ (w - 1)
  · have hltI : m < 2 ^ (w - 1) := by
      rw [← hx]
      exact_mod_cast hlt
    simp only [hlt, if_true]
    rw [hx]
    omega
  · have hgeI : 2 ^ (w - 1) ≤ m := by
      rw [← hx]
      exact_mod_cast Nat.le_of_not_lt hlt
    simp only [hlt, if_false]
    rw [hx]
    omega


/-! ### Bit-arithmetic helper lemmas -/

theorem lor_eq_add_of_land_eq_zero (a : Nat) : ∀ b, a &&& b = 0 → a ||| b = a + b := by
  induction a using Nat.binaryRec with
  | z => intro b h; simp
  | f ba na ih =>
      intro b h
      induction b using Nat.bitCasesOn with
      | h bb nb =>
          rw [Nat.lor_bit]
          rw [Nat.land_bit] at h
          rw [Nat.bit_eq_zero_iff] at h
          obtain ⟨h1, h2⟩ := h
          have h3 := ih nb h1
          rw [h3]
          cases ba <;> cases bb <;> simp_all [Nat.bit_val] <;> omega

theorem land_mask_48_12 (x : Nat) :
    x &&& 0xFFFFFFFFF000 = x % 2 ^ 48 / 2 ^ 12 * 2 ^ 12 := by
  have hmask : (0xFFFFFFFFF000 : Nat) = (2 ^ 36 - 1) <<< 12 := by
    norm_num [Nat.shiftLeft_eq]
  have hrhs : x % 2 ^ 48 / 2 ^ 12 * 2 ^ 12 = ((x % 2 ^ 48) >>> 12) <<< 12 := by
    rw [Nat.shiftLeft_eq, Nat.shiftRight_eq_div_pow]
  rw [hmask, hrhs]
  apply Nat.eq_of_testBit_eq
  intro i
  simp only [Nat.testBit_and, Nat.testBit_shiftLeft, Nat.testBit_shiftRight,
    Nat.testBit_mod_two_pow, Nat.testBit_two_pow_sub_one, ge_iff_le]
  by_cases h12 : 12 ≤ i
  · have hi : 12 + (i - 12) = i := by omega
    simp only [h12, decide_True, Bool.true_and, hi]
    by_cases h48 : i < 48
    · have h36 : i - 12 < 36 := by omega
      simp [h48, h36]
    · have h36 : ¬ (i - 12 < 36) := by omega
      simp [h48, h36]
  · simp [h12]

theorem land_mask_64_12 (x : Nat) (h : x < 2 ^ 64) :
    x &&& 0xFFFFFFFFFFFFF000 = x / 2 ^ 12 * 2 ^ 12 := by
  have hmask : (0xFFFFFFFFFFFFF000 : Nat) = (2 ^ 52 - 1) <<< 12 := by
    norm_num [Nat.shiftLeft_eq]
  have hrhs : x / 2 ^ 12 * 2 ^ 12 = (x >>> 12) <<< 12 := by
    rw [Nat.shiftLeft_eq, Nat.shiftRight_eq_div_pow]
  rw [hmask, hrhs]
  apply Nat.eq_of_testBit_eq
  intro i
  simp only [Nat.testBit_and, Nat.testBit_shiftLeft, Nat.testBit_shiftRight,
    Nat.testBit_two_pow_sub_one, ge_iff_le]
  by_cases h12 : 12 ≤ i
  · have hi : 12 + (i - 12) = i := by omega
    simp only [h12, decide_True, Bool.true_and, hi]
    by_cases h52 : i - 12 < 52
    · simp [h52]
    · have hbig : x.testBit i = false := by
        apply Nat.testBit_lt_two_pow
        calc x < 2 ^ 64 := h
        _ ≤ 2 ^ i := Nat.pow_le_pow_right (by norm_num) (by omega)
      simp [h52, hbig]
  · simp [h12]

theorem land_pow2_sub_one (x n : Nat) : x &&& (2 ^ n - 1) = x % 2 ^ n :=
  Nat.and_pow_two_sub_one_eq_mod x n


/-! ### Claim C1 — EL0 SVC dispatch (src/kernel/process/syscall.c) -/

/-- C1: the claim says that for `x8 != 3` the EL0 SVC handler raises a panic
containing "UNEXPECTED EL0 EXCEPTION", and that for `x8 == 3` it calls the
raw formatted print with `(x0, x1, x2)`.  Evaluating `sync_el0_handler_c`:
at `x8 = 7` the handler produces no panic effect at all (it prints "Hello"
and returns via `eret`); the `x8 = 3` half does hold.  No source file
contains the string "UNEXPECTED EL0 EXCEPTION". -/
theorem c1_sync_el0_handler_no_panic :
    (sync_el0_handler_c 0 0 0 7).all (fun e => !isPanicEffect e) = true ∧
    sync_el0_handler_c 0 0 0 7 = [KernelEffect.uartOut "Hello"] ∧
    sync_el0_handler_c 5 6 1 3 =
      [KernelEffect.uartOut "Hello", KernelEffect.printfArgsRaw 5 6 1] :=
  ⟨rfl, rfl, rfl⟩

/-! ### Claim C2 — `create_process` field initialization (scheduler.c) -/

/-- C2 counterexample: on a successful `create_process` call the stored
`spsr` is `0` (scheduler.c line 191 `proc->spsr = 0;`), not the claimed
`0x3C5` (that value is used by `create_kernel_process` in
kprocess_loader.c, not by `create_process`). -/
theorem c2_spsr_counterexample :
    (create_process ⟨List.replicate 16 default, 0, 0⟩
        0x400000 0x401000 0x402000).2.map process_t.spsr = some 0 ∧
    some (0 : Nat) ≠ some 0x3C5 := by
  exact ⟨rfl, by decide⟩

/-- C2 (amended: `spsr` is `0`, not `0x3C5`): every successful
`create_process(entry, code_size, entry_base, data, data_size)` call — table
not full, all three `alloc_proc_mem` results non-null — stores a record with
`pc` = the newly allocated code base, `sp` = `stack + stack_size`
(`stack_size` = 4 KiB), `spsr` = 0, state `READY`, `id` = the previous
`proc_count`, and increments `proc_count` by one. -/
theorem c2_create_process_fields (st : SchedState) (dd cd stk : Nat)
    (hcount : st.proc_count < MAX_PROCS) (hdd : dd ≠ 0) (hcd : cd ≠ 0) (hstk : stk ≠ 0)
    (hstk64 : stk + stack_size < 2 ^ 64) (hcd64 : cd < 2 ^ 64) :
    ∃ proc : process_t,
      create_process st dd cd stk =
        ({ st with
            processes := st.processes.set st.proc_count proc
            proc_count := st.proc_count + 1 }, some proc) ∧
      proc.pc = cd ∧ proc.sp = stk + stack_size ∧ proc.spsr = 0 ∧
      proc.state = ProcState.READY ∧ proc.id = st.proc_count := by
  unfold create_process
  rw [if_neg (by omega), if_neg hdd, if_neg hcd, if_neg hstk]
  refine ⟨_, rfl, ?_, ?_, rfl, rfl, rfl⟩
  · exact Nat.mod_eq_of_lt hcd64
  · exact Nat.mod_eq_of_lt hstk64

/-- Witness for C2: the amended theorem applied at a concrete table and
concrete allocation results. -/
theorem c2_create_process_fields_witness :
    ∃ proc : process_t,
      create_process ⟨List.replicate 16 default, 0, 0⟩ 0x400000 0x401000 0x402000 =
        (⟨(List.replicate 16 (default : process_t)).set 0 proc, 0, 1⟩, some proc) ∧
      proc.pc = 0x401000 ∧ proc.sp = 0x402000 + stack_size ∧ proc.spsr = 0 ∧
      proc.state = ProcState.READY ∧ proc.id = 0 :=
  c2_create_process_fields ⟨List.replicate 16 default, 0, 0⟩
    0x400000 0x401000 0x402000 (by decide) (by decide) (by decide) (by decide)
    (by norm_num [stack_size]) (by norm_num)

/-! ### Claim C8 — `temp_free` then `talloc` round trip (ram_e.c) -/

/-- C8: for every pointer `p`, size `s` and allocator state, `temp_free(p, s)`
immediately followed by `talloc(s)` returns `p` — and in fact restores the
entire allocator state, so in particular `next_free_temp_memory` is
unchanged by the pair of calls: the freed block becomes the list head with
stored size `round4k s`, and `talloc` rounds its request identically, so the
head is the first fit. -/
theorem c8_temp_free_talloc_roundtrip (heap_bottom : Nat) (st : RamState) (p s : Nat) :
    talloc heap_bottom (temp_free st p s) s = some (p, st) := by
  simp [talloc, temp_free, findFit]

/-! ### Claim C10 — `create_process` failure paths (scheduler.c) -/

/-- C10: when the table is full (`proc_count >= 16`) or any of the three
`alloc_proc_mem` results is null, `create_process` returns the null pointer
and the scheduler state is completely unchanged (in particular `proc_count`
and every table record); `proc_count` is incremented exactly on the
successful path. -/
theorem c10_create_process_failure (st st2 : SchedState) (dd cd stk dd2 cd2 stk2 : Nat)
    (h : st.proc_count ≥ MAX_PROCS ∨ dd = 0 ∨ cd = 0 ∨ stk = 0)
    (h2 : st2.proc_count < MAX_PROCS ∧ dd2 ≠ 0 ∧ cd2 ≠ 0 ∧ stk2 ≠ 0) :
    create_process st dd cd stk = (st, none) ∧
    (create_process st2 dd2 cd2 stk2).1.proc_count = st2.proc_count + 1 ∧
    (create_process st2 dd2 cd2 stk2).2 ≠ none := by
  obtain ⟨h2a, h2b, h2c, h2d⟩ := h2
  refine ⟨?_, ?_, ?_⟩
  · unfold create_process
    rcases h with h | h | h | h
    · rw [if_pos h]
    · rw [h]
      rcases Nat.lt_or_ge st.proc_count MAX_PROCS with hc | hc
      · rw [if_neg (by omega), if_pos rfl]
      · rw [if_pos hc]
    · rcases Nat.lt_or_ge st.proc_count MAX_PROCS with hc | hc
      · rcases Nat.eq_zero_or_pos dd with hd | hd
        · rw [if_neg (by omega), if_pos hd]
        · rw [if_neg (by omega), if_neg (by omega), if_pos h]
      · rw [if_pos hc]
    · rcases Nat.lt_or_ge st.proc_count MAX_PROCS with hc | hc
      · rcases Nat.eq_zero_or_pos dd with hd | hd
        · rw [if_neg (by omega), if_pos hd]
        · rcases Nat.eq_zero_or_pos cd with he | he
          · rw [if_neg (by omega), if_neg (by omega), if_pos he]
          · rw [if_neg (by omega), if_neg (by omega), if_neg (by omega), if_pos h]
      · rw [if_pos hc]
  · unfold create_process
    rw [if_neg (by omega), if_neg h2b, if_neg h2c, if_neg h2d]
  · unfold create_process
    rw [if_neg (by omega), if_neg h2b, if_neg h2c, if_neg h2d]
    simp

/-- Witness for C10: the theorem applied with a full table on the failure
side and valid allocations on the success side. -/
theorem c10_create_process_failure_witness :
    create_process ⟨List.replicate 16 default, 0, 16⟩ 0x400000 0x401000 0x402000 =
      (⟨List.replicate 16 default, 0, 16⟩, none) ∧
    (create_process ⟨List.replicate 16 default, 0, 0⟩
        0x400000 0x401000 0x402000).1.proc_count = 0 + 1 ∧
    (create_process ⟨List.replicate 16 default, 0, 0⟩
        0x400000 0x401000 0x402000).2 ≠ none :=
  c10_create_process_failure
    ⟨List.replicate 16 default, 0, 16⟩ ⟨List.replicate 16 default, 0, 0⟩
    0x400000 0x401000 0x402000 0x400000 0x401000 0x402000
    (Or.inl (by decide)) ⟨by decide, by decide, by decide, by decide⟩

/-! ### Claim C6 — round-robin scheduling (scheduler.c `switch_proc`) -/

/-- When every table entry below `proc_count` is READY, one `switch_proc`
invocation advances `current_proc` to `(current_proc + 1) % proc_count`:
the walk's first probe already satisfies the READY test. -/
theorem switch_proc_all_ready (st : SchedState) (h1 : 0 < st.proc_count)
    (hready : ∀ i < st.proc_count, (st.processes.getD i default).state = ProcState.READY) :
    switch_proc st = some { st with current_proc := (st.current_proc + 1) % st.proc_count } := by
  unfold switch_proc
  rw [if_neg (by omega)]
  have hlt : (st.current_proc + 1) % st.proc_count < st.proc_count :=
    Nat.mod_lt _ h1
  have hr := hready _ hlt
  unfold switchWalk
  rw [if_pos hr]

/-- Under the all-READY hypothesis, `m` consecutive invocations visit the
indices `(current_proc + 1 + k) % proc_count` for `k < m`, in order. -/
theorem iterSwitch_all_ready (m : Nat) : ∀ (st : SchedState), 0 < st.proc_count →
    (∀ i < st.proc_count, (st.processes.getD i default).state = ProcState.READY) →
    iterSwitch st m =
      (List.range m).map (fun k => (st.current_proc + 1 + k) % st.proc_count) := by
  induction m with
  | zero => intro st h1 hready; simp [iterSwitch]
  | succ n ih =>
      intro st h1 hready
      unfold iterSwitch
      rw [switch_proc_all_ready st h1 hready]
      have ih' := ih { st with current_proc := (st.current_proc + 1) % st.proc_count }
        h1 hready
      simp only [ih', List.range_succ_eq_map, List.map_cons, List.map_map, List.cons.injEq]
      refine ⟨by simp, ?_⟩
      apply List.map_congr_left
      intro k _
      simp only [Function.comp_apply]
      have hshape : (st.current_proc + 1) % st.proc_count + 1 + k =
          (st.current_proc + 1) % st.proc_count + (1 + k) := by omega
      rw [hshape, Nat.mod_add_mod]
      congr 1
      omega

/-- Each residue `j < n` occurs exactly once among
`(c + 1 + k) % n` for `k < n`. -/
theorem count_rotation (n c j : Nat) (hn : 0 < n) (hj : j < n) :
    ((List.range n).map (fun k => (c + 1 + k) % n)).count j = 1 := by
  apply List.count_eq_one_of_mem
  · apply List.Nodup.map_on _ (List.nodup_range n)
    intro x hx y hy hxy
    have hx' : x < n := List.mem_range.mp hx
    have hy' : y < n := List.mem_range.mp hy
    have hmod : (c + 1 + x) % n = (c + 1 + y) % n := hxy
    have hcancel : x % n = y % n := Nat.ModEq.add_left_cancel' (c + 1) hmod
    rwa [Nat.mod_eq_of_lt hx', Nat.mod_eq_of_lt hy'] at hcancel
  · rw [List.mem_map]
    refine ⟨(n + j - (c + 1) % n) % n, List.mem_range.mpr (Nat.mod_lt _ hn), ?_⟩
    have hr : (c + 1) % n < n := Nat.mod_lt _ hn
    rw [Nat.add_mod_mod]
    have hdm := Nat.div_add_mod (c + 1) n
    have hmul : n * ((c + 1) / n + 1) = n * ((c + 1) / n) + n := by ring
    have hq : c + 1 + (n + j - (c + 1) % n) = n * ((c + 1) / n + 1) + j := by omega
    rw [hq, Nat.mul_add_mod]
    exact Nat.mod_eq_of_lt hj

/-- C6: with `n >= 1` processes all READY, an invocation of `switch_proc`
advances `current_proc` to `(current_proc + 1) % proc_count`, and over
`proc_count` consecutive invocations every index below `proc_count` becomes
the current process exactly once; an invocation with `proc_count == 0`
returns leaving the whole state unchanged. -/
theorem c6_switch_proc_round_robin (st st0 : SchedState) (j : Nat)
    (h1 : 0 < st.proc_count) (hj : j < st.proc_count)
    (hready : ∀ i < st.proc_count, (st.processes.getD i default).state = ProcState.READY)
    (h0 : st0.proc_count = 0) :
    switch_proc st = some { st with current_proc := (st.current_proc + 1) % st.proc_count } ∧
    (iterSwitch st st.proc_count).count j = 1 ∧
    switch_proc st0 = some st0 := by
  refine ⟨switch_proc_all_ready st h1 hready, ?_, ?_⟩
  · rw [iterSwitch_all_ready st.proc_count st h1 hready]
    exact count_rotation st.proc_count st.current_proc j h1 hj
  · unfold switch_proc
    rw [if_pos h0]

/-- Witness for C6: a table with three READY processes starting at
`current_proc = 0`, plus an empty table for the `proc_count == 0` clause. -/
theorem c6_switch_proc_round_robin_witness :
    switch_proc ⟨List.replicate 16 default, 0, 3⟩ =
      some { (⟨List.replicate 16 default, 0, 3⟩ : SchedState) with
        current_proc := (0 + 1) % 3 } ∧
    (iterSwitch ⟨List.replicate 16 default, 0, 3⟩ 3).count 2 = 1 ∧
    switch_proc ⟨[], 0, 0⟩ = some ⟨[], 0, 0⟩ :=
  c6_switch_proc_round_robin ⟨List.replicate 16 default, 0, 3⟩ ⟨[], 0, 0⟩ 2
    (by decide) (by decide) (by decide) (by decide)

/-! ### Claim C9 — `vgp_init` outcome from the display-info response -/

/-- The scanout loop finds nothing when every mode reports `enabled = 0`. -/
theorem scanScanouts_eq_none (l : List virtio_gpu_display_one)
    (h : ∀ m ∈ l, m.enabled = 0) : ∀ i, scanScanouts l i = none := by
  induction l with
  | nil => intro i; rfl
  | cons m rest ih =>
      intro i
      unfold scanScanouts
      rw [if_neg (by simp [h m (by simp)])]
      exact ih (fun m' hm' => h m' (by simp [hm'])) (i + 1)

/-- C9: `vgp_init`'s outcome is fixed by the GET_DISPLAY_INFO response.
If scanout 0 reports `enabled = 1` with size 1024x768, then after
`vgp_init(1024, 768)` the driver has `display_width = 1024`,
`display_height = 768`, `scanout_id = 0`, `scanout_found = true`, the
framebuffer allocation is `1024 * 768 * 4` bytes, and SET_SCANOUT is issued;
if no scanout reports enabled, then after `vgp_init(800, 600)` the driver
has `display_width = 800`, `display_height = 600`, `scanout_found = false`,
and SET_SCANOUT is not issued. -/
theorem c9_vgp_init_display_info (rest pm2 : List virtio_gpu_display_one)
    (_hrest : rest.length = 15) (_hpm2len : pm2.length = 16)
    (hpm2 : ∀ m ∈ pm2, m.enabled = 0) :
    ((vgp_init 1024 768 true (⟨1, 1024, 768⟩ :: rest)).state.display_width = 1024 ∧
      (vgp_init 1024 768 true (⟨1, 1024, 768⟩ :: rest)).state.display_height = 768 ∧
      (vgp_init 1024 768 true (⟨1, 1024, 768⟩ :: rest)).state.scanout_id = 0 ∧
      (vgp_init 1024 768 true (⟨1, 1024, 768⟩ :: rest)).state.scanout_found = true ∧
      (vgp_init 1024 768 true (⟨1, 1024, 768⟩ :: rest)).fb_alloc = some (1024 * 768 * 4) ∧
      GpuCmd.SET_SCANOUT ∈ (vgp_init 1024 768 true (⟨1, 1024, 768⟩ :: rest)).cmds) ∧
    ((vgp_init 800 600 true pm2).state.display_width = 800 ∧
      (vgp_init 800 600 true pm2).state.display_height = 600 ∧
      (vgp_init 800 600 true pm2).state.scanout_found = false ∧
      GpuCmd.SET_SCANOUT ∉ (vgp_init 800 600 true pm2).cmds) := by
  have hnone : scanScanouts (pm2.take 16) 0 = none :=
    scanScanouts_eq_none (pm2.take 16)
      (fun m hm => hpm2 m (List.mem_of_mem_take hm)) 0
  constructor
  · simp [vgp_init, vgp_get_display_info, scanScanouts, gpuInit]
  · simp [vgp_init, vgp_get_display_info, hnone, gpuInit]

/-- Witness for C9: a response with scanout 0 enabled at 1024x768, and a
response with all sixteen scanouts disabled. -/
theorem c9_vgp_init_display_info_witness :
    ((vgp_init 1024 768 true
        (⟨1, 1024, 768⟩ :: List.replicate 15 ⟨0, 0, 0⟩)).state.display_width = 1024 ∧
      (vgp_init 1024 768 true
        (⟨1, 1024, 768⟩ :: List.replicate 15 ⟨0, 0, 0⟩)).state.display_height = 768 ∧
      (vgp_init 1024 768 true
        (⟨1, 1024, 768⟩ :: List.replicate 15 ⟨0, 0, 0⟩)).state.scanout_id = 0 ∧
      (vgp_init 1024 768 true
        (⟨1, 1024, 768⟩ :: List.replicate 15 ⟨0, 0, 0⟩)).state.scanout_found = true ∧
      (vgp_init 1024 768 true
        (⟨1, 1024, 768⟩ :: List.replicate 15 ⟨0, 0, 0⟩)).fb_alloc =
          some (1024 * 768 * 4) ∧
      GpuCmd.SET_SCANOUT ∈ (vgp_init 1024 768 true
        (⟨1, 1024, 768⟩ :: List.replicate 15 ⟨0, 0, 0⟩)).cmds) ∧
    ((vgp_init 800 600 true (List.replicate 16 ⟨0, 0, 0⟩)).state.display_width = 800 ∧
      (vgp_init 800 600 true (List.replicate 16 ⟨0, 0, 0⟩)).state.display_height = 600 ∧
      (vgp_init 800 600 true (List.replicate 16 ⟨0, 0, 0⟩)).state.scanout_found = false ∧
      GpuCmd.SET_SCANOUT ∉ (vgp_init 800 600 true (List.replicate 16 ⟨0, 0, 0⟩)).cmds) :=
  c9_vgp_init_display_info (List.replicate 15 ⟨0, 0, 0⟩) (List.replicate 16 ⟨0, 0, 0⟩)
    (by decide) (by decide) (by decide)


/-! ### Claim C7 — allocator invariants (ram_e.c) -/

/-- Soundness of the first-fit walk: a hit returns the address of a listed
block whose stored size covers the request, and the remaining list is a
sublist of the original. -/
theorem findFit_sound : ∀ (l : List (Nat × Nat)) (size p : Nat) (rest : List (Nat × Nat)),
    findFit l size = some (p, rest) →
    (∃ bs, size ≤ bs ∧ (p, bs) ∈ l) ∧ ∀ b ∈ rest, b ∈ l := by
  intro l
  induction l with
  | nil => intro size p rest h; simp [findFit] at h
  | cons hd tl ih =>
      intro size p rest h
      obtain ⟨a, bs⟩ := hd
      unfold findFit at h
      by_cases hfit : bs ≥ size
      · rw [if_pos hfit] at h
        rw [Option.some.injEq, Prod.mk.injEq] at h
        obtain ⟨hp, hrest⟩ := h
        subst hp
        subst hrest
        exact ⟨⟨bs, hfit, by simp⟩, fun b hb => by simp [hb]⟩
      · rw [if_neg hfit] at h
        cases heq : findFit tl size with
        | none => rw [heq] at h; simp at h
        | some v =>
            obtain ⟨q, rest'⟩ := v
            rw [heq] at h
            rw [Option.some.injEq, Prod.mk.injEq] at h
            obtain ⟨⟨bs', hbs', hmem⟩, hsub⟩ := ih size q rest' heq
            obtain ⟨hp, hrest⟩ := h
            subst hp
            subst hrest
            refine ⟨⟨bs', hbs', by simp [hmem]⟩, ?_⟩
            intro b hb
            rcases List.mem_cons.mp hb with hb | hb
            · simp [hb]
            · simp [hsub b hb]

/-- The rounded size is a multiple of 4 KiB. -/
theorem round4k_aligned (s : Nat) : round4k s % 4096 = 0 := by
  unfold round4k
  omega

/-- One allocator call obeying `AllocOpOk` preserves the state invariant,
never decreases either bump pointer, and every address it hands out is
4 KiB-aligned and fits below its region's upper bound. -/
theorem allocStep_wf (hb hl : Nat) (st : RamState) (op : AllocOp)
    (res : Option (Bool × Nat × Nat)) (st' : RamState)
    (hlim : hl + 0xFFF < 2 ^ 64)
    (hwf : RamWF hb hl st) (hop : AllocOpOk hb hl op)
    (hstep : allocStep hb hl st op = some (res, st')) :
    RamWF hb hl st' ∧
    st.next_free_temp_memory ≤ st'.next_free_temp_memory ∧
    st.next_free_perm_memory ≤ st'.next_free_perm_memory ∧
    ∀ t, res = some t → t.2.1 % 4096 = 0 ∧
      (t.1 = true → t.2.1 + t.2.2 ≤ hb + 0x500000) ∧
      (t.1 = false → t.2.1 + t.2.2 ≤ hl) := by
  obtain ⟨hwf1, hwf2, hwf3, hwf4⟩ := hwf
  cases op with
  | top_talloc size =>
      unfold allocStep at hstep
      dsimp only at hstep
      cases htal : talloc hb st size with
      | none => rw [htal] at hstep; simp at hstep
      | some v =>
          obtain ⟨addr, st1⟩ := v
          rw [htal] at hstep
          rw [Option.some.injEq, Prod.mk.injEq] at hstep
          obtain ⟨hres, hst'⟩ := hstep
          subst hres
          subst hst'
          unfold talloc at htal
          dsimp only at htal
          cases hfind : findFit st.temp_free_list (round4k size) with
          | some w =>
              obtain ⟨p, rest⟩ := w
              rw [hfind] at htal
              rw [Option.some.injEq, Prod.mk.injEq] at htal
              obtain ⟨hp, hst1⟩ := htal
              subst hp
              subst hst1
              obtain ⟨⟨bs, hbs, hmem⟩, hsub⟩ :=
                findFit_sound st.temp_free_list (round4k size) p rest hfind
              obtain ⟨hal, hbound⟩ := hwf4 (p, bs) hmem
              refine ⟨⟨hwf1, hwf2, hwf3, fun b hbmem => hwf4 b (hsub b hbmem)⟩,
                le_refl _, le_refl _, ?_⟩
              intro t ht
              rw [Option.some.injEq] at ht
              subst ht
              refine ⟨hal, fun _ => by dsimp only; omega, fun hfalse => by simp at hfalse⟩
          | none =>
              rw [hfind] at htal
              have hop' : hb + 0x500000 + round4k size < 2 ^ 64 := hop
              by_cases hover : (st.next_free_temp_memory + round4k size) % 2 ^ 64 >
                  (hb + 0x500000) % 2 ^ 64
              · rw [if_pos hover] at htal; simp at htal
              · rw [if_neg hover] at htal
                rw [Option.some.injEq, Prod.mk.injEq] at htal
                obtain ⟨hp, hst1⟩ := htal
                subst hp
                subst hst1
                have hround := round4k_aligned size
                refine ⟨⟨by dsimp only; omega, by dsimp only; omega, hwf3, hwf4⟩,
                  by dsimp only; omega, le_refl _, ?_⟩
                intro t ht
                rw [Option.some.injEq] at ht
                subst ht
                refine ⟨hwf1, fun _ => by dsimp only; omega, fun hfalse => by simp at hfalse⟩
  | top_temp_free ptr size =>
      unfold allocStep at hstep
      dsimp only at hstep
      rw [Option.some.injEq, Prod.mk.injEq] at hstep
      obtain ⟨hres, hst'⟩ := hstep
      subst hres
      subst hst'
      obtain ⟨hop1, hop2⟩ := hop
      refine ⟨⟨hwf1, hwf2, hwf3, ?_⟩, le_refl _, le_refl _, ?_⟩
      · intro b hb2
        rcases List.mem_cons.mp hb2 with hb2 | hb2
        · subst hb2
          exact ⟨hop1, hop2⟩
        · exact hwf4 b hb2
      · intro t ht
        simp at ht
  | top_palloc size =>
      unfold allocStep at hstep
      dsimp only at hstep
      cases hpal : palloc hl st size with
      | none => rw [hpal] at hstep; simp at hstep
      | some v =>
          obtain ⟨addr, st1⟩ := v
          rw [hpal] at hstep
          rw [Option.some.injEq, Prod.mk.injEq] at hstep
          obtain ⟨hres, hst'⟩ := hstep
          subst hres
          subst hst'
          unfold palloc at hpal
          dsimp only at hpal
          have hop' : hl + 0xFFF + round4k size < 2 ^ 64 := hop
          by_cases hover : ((st.next_free_perm_memory + 0xFFF) % 2 ^ 64 / 0x1000 * 0x1000 +
              round4k size) % 2 ^ 64 > hl
          · rw [if_pos hover] at hpal; simp at hpal
          · rw [if_neg hover] at hpal
            rw [Option.some.injEq, Prod.mk.injEq] at hpal
            obtain ⟨hp, hst1⟩ := hpal
            subst hp
            subst hst1
            refine ⟨⟨hwf1, hwf2, by dsimp only; omega, hwf4⟩, le_refl _,
              by dsimp only; omega, ?_⟩
            intro t ht
            rw [Option.some.injEq] at ht
            subst ht
            refine ⟨by dsimp only; omega, fun htrue => by simp at htrue,
              fun _ => by dsimp only; omega⟩

/-- Invariants carried through any panic-free run of allocator calls obeying
`AllocOpOk`. -/
theorem allocRun_sound (hb hl : Nat) (hlim : hl + 0xFFF < 2 ^ 64) :
    ∀ (ops : List AllocOp) (st : RamState) (results : List (Bool × Nat × Nat))
      (stf : RamState),
    RamWF hb hl st → (∀ o ∈ ops, AllocOpOk hb hl o) →
    allocRun hb hl st ops = some (results, stf) →
    (∀ r ∈ results, r.2.1 % 4096 = 0 ∧
      (r.1 = true → r.2.1 + r.2.2 ≤ hb + 0x500000) ∧
      (r.1 = false → r.2.1 + r.2.2 ≤ hl)) ∧
    st.next_free_temp_memory ≤ stf.next_free_temp_memory ∧
    st.next_free_perm_memory ≤ stf.next_free_perm_memory ∧ RamWF hb hl stf := by
  intro ops
  induction ops with
  | nil =>
      intro st results stf hwf hfree hrun
      unfold allocRun at hrun
      rw [Option.some.injEq, Prod.mk.injEq] at hrun
      obtain ⟨h1, h2⟩ := hrun
      subst h1
      subst h2
      exact ⟨by simp, le_refl _, le_refl _, hwf⟩
  | cons op ops ih =>
      intro st results stf hwf hfree hrun
      unfold allocRun at hrun
      cases hstep : allocStep hb hl st op with
      | none => rw [hstep] at hrun; simp at hrun
      | some v =>
          obtain ⟨r, st1⟩ := v
          rw [hstep] at hrun
          dsimp only at hrun
          cases hrest : allocRun hb hl st1 ops with
          | none => rw [hrest] at hrun; simp at hrun
          | some w =>
              obtain ⟨rs, stf1⟩ := w
              rw [hrest] at hrun
              dsimp only at hrun
              obtain ⟨hwf1, hmono1, hmono2, hres⟩ :=
                allocStep_wf hb hl st op r st1 hlim hwf (hfree op (by simp)) hstep
              obtain ⟨hall, hmono3, hmono4, hwff⟩ :=
                ih st1 rs stf1 hwf1 (fun o ho => hfree o (by simp [ho])) hrest
              cases r with
              | none =>
                  rw [Option.some.injEq, Prod.mk.injEq] at hrun
                  obtain ⟨h1, h2⟩ := hrun
                  subst h1
                  subst h2
                  exact ⟨hall, by omega, by omega, hwff⟩
              | some t =>
                  rw [Option.some.injEq, Prod.mk.injEq] at hrun
                  obtain ⟨h1, h2⟩ := hrun
                  subst h1
                  subst h2
                  refine ⟨?_, by omega, by omega, hwff⟩
                  intro r hr
                  rcases List.mem_cons.mp hr with hr | hr
                  · subst hr
                    exact hres r rfl
                  · exact hall r hr

/-- C7 counterexample, two failure modes. First, the claim quantifies over
every `talloc`/`temp_free`/`palloc` sequence, but freeing the unaligned
pointer `5` and then calling `talloc` returns `5`, which is not a multiple
of 4096. Second, the overflow check at ram_e.c:148 compares a wrapping
uint64 sum, so `talloc 0xFFFFFFFFFFFFF000` passes the check, returns a
block crossing `heap_bottom + 5 MiB` without panicking, and moves the bump
pointer backwards. -/
theorem c7_alloc_invariants_counterexample :
    (allocRun 0x40000000 0x40A00000 (ramInit 0x40000000)
        [AllocOp.top_temp_free 5 1, AllocOp.top_talloc 1] =
        some ([(true, 5, 4096)], ramInit 0x40000000) ∧ ¬ (5 % 4096 = 0)) ∧
    (allocRun 0x40000000 0x40A00000 (ramInit 0x40000000)
        [AllocOp.top_talloc 0xFFFFFFFFFFFFF000] =
        some ([(true, 0x40000000, 0xFFFFFFFFFFFFF000)],
          ⟨0x3FFFF000, 0x40500000, []⟩) ∧
      ¬ (0x40000000 + 0xFFFFFFFFFFFFF000 ≤ 0x40000000 + 0x500000) ∧
      (0x3FFFF000 : Nat) < (ramInit 0x40000000).next_free_temp_memory) := by
  exact ⟨⟨rfl, by decide⟩, rfl, by decide, by decide⟩

/-- C7 (amended: restricted to sequences obeying `AllocOpOk` — every
`temp_free` call frees a 4 KiB-aligned block lying inside the transient
region, as every block `talloc` hands out does, and every requested size
keeps `region bound + rounded size` below `2 ^ 64`, so that the allocator's
64-bit overflow comparison cannot wrap; without the size restriction the
counterexample's huge `talloc` passes the wrapped check, returns an
oversized block and decreases the bump pointer): in any panic-free run from
the initial state, every address returned by `talloc` or `palloc` is a
multiple of 4096, every transient allocation satisfies
`address + rounded_size ≤ heap_bottom + 5 MiB` and every permanent one
`address + rounded_size ≤ heap_limit` (an allocation that would cross its
bound panics instead of returning), and both bump pointers are monotonically
non-decreasing — per call and across the whole run. -/
theorem c7_alloc_invariants (hb hl : Nat) (ops : List AllocOp)
    (results : List (Bool × Nat × Nat)) (stf : RamState) (r : Bool × Nat × Nat)
    (stA stB : RamState) (op : AllocOp) (resA : Option (Bool × Nat × Nat))
    (hbase : hb % 4096 = 0) (hinit : hb + 0x500000 ≤ hl) (hlim : hl + 0xFFF < 2 ^ 64)
    (hfree : ∀ o ∈ ops, AllocOpOk hb hl o)
    (hrun : allocRun hb hl (ramInit hb) ops = some (results, stf))
    (hr : r ∈ results)
    (hwfA : RamWF hb hl stA) (hopA : AllocOpOk hb hl op)
    (hstep : allocStep hb hl stA op = some (resA, stB)) :
    (r.2.1 % 4096 = 0 ∧
      (r.1 = true → r.2.1 + r.2.2 ≤ hb + 0x500000) ∧
      (r.1 = false → r.2.1 + r.2.2 ≤ hl)) ∧
    stA.next_free_temp_memory ≤ stB.next_free_temp_memory ∧
    stA.next_free_perm_memory ≤ stB.next_free_perm_memory ∧
    (ramInit hb).next_free_temp_memory ≤ stf.next_free_temp_memory ∧
    (ramInit hb).next_free_perm_memory ≤ stf.next_free_perm_memory := by
  have hwf0 : RamWF hb hl (ramInit hb) :=
    ⟨hbase, by simp [ramInit], by simp [ramInit]; omega, by simp [ramInit]⟩
  obtain ⟨hall, hm1, hm2, _⟩ :=
    allocRun_sound hb hl hlim ops (ramInit hb) results stf hwf0 hfree hrun
  obtain ⟨_, hs1, hs2, _⟩ :=
    allocStep_wf hb hl stA op resA stB hlim hwfA hopA hstep
  exact ⟨hall r hr, hs1, hs2, hm1, hm2⟩

/-- Witness for C7: a run that allocates one transient page then frees it
back (aligned, in range), plus one concrete `temp_free` step. -/
theorem c7_alloc_invariants_witness :
    (((true, 0x40000000, 4096) : Bool × Nat × Nat).2.1 % 4096 = 0 ∧
      (((true, 0x40000000, 4096) : Bool × Nat × Nat).1 = true →
        ((true, 0x40000000, 4096) : Bool × Nat × Nat).2.1 +
          ((true, 0x40000000, 4096) : Bool × Nat × Nat).2.2 ≤ 0x40000000 + 0x500000) ∧
      (((true, 0x40000000, 4096) : Bool × Nat × Nat).1 = false →
        ((true, 0x40000000, 4096) : Bool × Nat × Nat).2.1 +
          ((true, 0x40000000, 4096) : Bool × Nat × Nat).2.2 ≤ 0x40A00000)) ∧
    (ramInit 0x40000000).next_free_temp_memory ≤
      (temp_free (ramInit 0x40000000) 0x40000000 4096).next_free_temp_memory ∧
    (ramInit 0x40000000).next_free_perm_memory ≤
      (temp_free (ramInit 0x40000000) 0x40000000 4096).next_free_perm_memory ∧
    (ramInit 0x40000000).next_free_temp_memory ≤
      (⟨0x40001000, 0x40500000, [(0x40000000, 4096)]⟩ : RamState).next_free_temp_memory ∧
    (ramInit 0x40000000).next_free_perm_memory ≤
      (⟨0x40001000, 0x40500000, [(0x40000000, 4096)]⟩ : RamState).next_free_perm_memory :=
  c7_alloc_invariants 0x40000000 0x40A00000
    [AllocOp.top_talloc 1, AllocOp.top_temp_free 0x40000000 4096]
    [(true, 0x40000000, 4096)] ⟨0x40001000, 0x40500000, [(0x40000000, 4096)]⟩
    (true, 0x40000000, 4096)
    (ramInit 0x40000000) (temp_free (ramInit 0x40000000) 0x40000000 4096)
    (AllocOp.top_temp_free 0x40000000 4096) none
    (by norm_num) (by norm_num) (by norm_num)
    (by
      intro o ho
      rcases List.mem_cons.mp ho with h | h
      · subst h
        exact (by decide : (0x40000000 + 0x500000 + round4k 1 : Nat) < 2 ^ 64)
      · rcases List.mem_cons.mp h with h2 | h2
        · subst h2; exact ⟨by decide, by decide⟩
        · simp at h2)
    (by decide) (by decide)
    (by exact ⟨by decide, by decide, by decide, by simp [ramInit]⟩)
    (by exact ⟨by decide, by decide⟩)
    (by decide)


/-! ### Claim C3 — MMU descriptor attribute bits (mmu.c) -/

/-- A value whose low `k` bits are zero shares no bits with a value below
`2 ^ k`. -/
theorem land_eq_zero_of_disjoint (x y k : Nat) (hx : x % 2 ^ k = 0) (hy : y < 2 ^ k) :
    x &&& y = 0 := by
  apply Nat.eq_of_testBit_eq
  intro i
  simp only [Nat.testBit_and, Nat.zero_testBit]
  by_cases hik : i < k
  · have h2 := Nat.testBit_mod_two_pow x k i
    rw [hx] at h2
    simp only [Nat.zero_testBit, hik, decide_True, Bool.true_and] at h2
    rw [← h2]
    simp
  · have h2 : y.testBit i = false :=
      Nat.testBit_lt_two_pow
        (lt_of_lt_of_le hy (Nat.pow_le_pow_right (by norm_num) (by omega)))
    simp [h2]

/-- Bitwise-or of bit-disjoint values is their sum (aligned/low split). -/
theorem lor_eq_add_of_disjoint (x y k : Nat) (hx : x % 2 ^ k = 0) (hy : y < 2 ^ k) :
    x ||| y = x + y :=
  lor_eq_add_of_land_eq_zero x y (land_eq_zero_of_disjoint x y k hx hy)

/-- Or-ing a 4 KiB-aligned 48-bit value with `2 ^ 54 * u + c` (`c` below
4 KiB) is addition: the three bit ranges are pairwise disjoint. -/
theorem lor_add_mid (q u c : Nat) (hq0 : q % 2 ^ 12 = 0) (hq1 : q < 2 ^ 48)
    (hc : c < 2 ^ 12) :
    q ||| (2 ^ 54 * u + c) = q + (2 ^ 54 * u + c) := by
  apply lor_eq_add_of_land_eq_zero
  apply Nat.eq_of_testBit_eq
  intro i
  simp only [Nat.testBit_and, Nat.zero_testBit]
  by_cases h12 : i < 12
  · have h2 := Nat.testBit_mod_two_pow q 12 i
    rw [hq0] at h2
    simp only [Nat.zero_testBit, h12, decide_True, Bool.true_and] at h2
    rw [← h2]
    simp
  · by_cases h48 : i < 48
    · have hzmod : (2 ^ 54 * u) % 2 ^ 48 = 0 := by
        have hfac : (2 : Nat) ^ 54 * u = 2 ^ 48 * (2 ^ 6 * u) := by ring
        rw [hfac, Nat.mul_mod_right]
      have hz : (2 ^ 54 * u + c) % 2 ^ 48 = c := by omega
      have h2 := Nat.testBit_mod_two_pow (2 ^ 54 * u + c) 48 i
      rw [hz] at h2
      have hcbit : c.testBit i = false :=
        Nat.testBit_lt_two_pow
          (lt_of_lt_of_le hc (Nat.pow_le_pow_right (by norm_num) (by omega)))
      rw [hcbit] at h2
      simp only [h48, decide_True, Bool.true_and] at h2
      have hzbit : (2 ^ 54 * u + c).testBit i = false := h2.symm
      rw [hzbit, Bool.and_false]
    · have h2 : q.testBit i = false :=
        Nat.testBit_lt_two_pow
          (lt_of_lt_of_le hq1 (Nat.pow_le_pow_right (by norm_num) (by omega)))
      simp [h2]

/-- Arithmetic normal form of the `mmu_map_2mb` block descriptor:
address bits `pa[47:12]`, then `AF(0x400) + SH(0x300) + AttrIdx(4a) +
PD_BLOCK(1) = 4a + 1793`. -/
theorem mmu_map_2mb_descriptor_eq (pa a : Nat) (ha : a < 8) :
    mmu_map_2mb_descriptor pa a = pa % 2 ^ 48 / 2 ^ 12 * 2 ^ 12 + (4 * a + 1793) := by
  unfold mmu_map_2mb_descriptor
  dsimp only
  have hsh : (a <<< 2) % 2 ^ 64 = a * 4 := by
    rw [Nat.shiftLeft_eq]
    rw [Nat.mod_eq_of_lt (by omega)]
  rw [hsh]
  simp only [Nat.zero_shiftLeft, Nat.zero_or, Nat.or_zero]
  have s1 : (1 <<< 10 : Nat) ||| 3 <<< 8 = 1792 := by decide
  rw [s1]
  have s2 : (1792 : Nat) ||| a * 4 = 1792 + a * 4 :=
    lor_eq_add_of_disjoint 1792 (a * 4) 5 (by norm_num) (by omega)
  rw [s2]
  have s3 : (1792 + a * 4 : Nat) ||| 1 = 1792 + a * 4 + 1 :=
    lor_eq_add_of_disjoint _ 1 1 (by omega) (by norm_num)
  rw [s3]
  rw [land_mask_48_12]
  have s4 : pa % 2 ^ 48 / 2 ^ 12 * 2 ^ 12 ||| (1792 + a * 4 + 1) =
      pa % 2 ^ 48 / 2 ^ 12 * 2 ^ 12 + (1792 + a * 4 + 1) :=
    lor_eq_add_of_disjoint _ _ 12 (by omega) (by omega)
  rw [s4]
  omega

/-- The `switch (level)` permission value is at most `0b10`. -/
theorem mmu_4kb_permission_le (level : Nat) : mmu_4kb_permission level ≤ 2 := by
  rcases level with _ | _ | _ | l
  · exact Nat.succ_le_succ (Nat.zero_le 1)
  · exact Nat.zero_le 2
  · exact Nat.le_refl 2
  · exact Nat.zero_le 2

/-- Arithmetic normal form of the `mmu_map_4kb` page descriptor. -/
theorem mmu_map_4kb_descriptor_eq (pa a level : Nat) (ha : a < 8) :
    mmu_map_4kb_descriptor pa a level =
      pa % 2 ^ 48 / 2 ^ 12 * 2 ^ 12 +
        (2 ^ 54 * (if level = 1 then 1 else 0) +
          (64 * mmu_4kb_permission level + (4 * a + 1795))) := by
  unfold mmu_map_4kb_descriptor
  dsimp only
  have hsh : (a <<< 2) % 2 ^ 64 = a * 4 := by
    rw [Nat.shiftLeft_eq]
    rw [Nat.mod_eq_of_lt (by omega)]
  rw [hsh]
  set u := (if level = 1 then (1 : Nat) else 0) with hu
  have hule : u ≤ 1 := by rw [hu]; split <;> norm_num
  set p := mmu_4kb_permission level with hp
  have hple : p ≤ 2 := hp ▸ mmu_4kb_permission_le level
  have e54 : u <<< 54 = u * 2 ^ 54 := Nat.shiftLeft_eq u 54
  have e6 : p <<< 6 = p * 64 := Nat.shiftLeft_eq p 6
  rw [e54, e6]
  have e53 : (u * 2 ^ 54 : Nat) ||| 0 <<< 53 = u * 2 ^ 54 := Nat.or_zero _
  rw [e53]
  have s1 : (u * 2 ^ 54 : Nat) ||| 1 <<< 10 = u * 2 ^ 54 + 1024 :=
    lor_eq_add_of_disjoint _ _ 11 (by omega) (by decide)
  rw [s1]
  have s2 : (u * 2 ^ 54 + 1024 : Nat) ||| 3 <<< 8 = u * 2 ^ 54 + 1024 + 768 :=
    lor_eq_add_of_disjoint _ _ 10 (by omega) (by decide)
  rw [s2]
  have s3 : (u * 2 ^ 54 + 1024 + 768 : Nat) ||| p * 64 =
      u * 2 ^ 54 + 1024 + 768 + p * 64 :=
    lor_eq_add_of_disjoint _ _ 8 (by omega) (by omega)
  rw [s3]
  have s4 : (u * 2 ^ 54 + 1024 + 768 + p * 64 : Nat) ||| a * 4 =
      u * 2 ^ 54 + 1024 + 768 + p * 64 + a * 4 :=
    lor_eq_add_of_disjoint _ _ 5 (by omega) (by omega)
  rw [s4]
  have s5 : (u * 2 ^ 54 + 1024 + 768 + p * 64 + a * 4 : Nat) ||| 3 =
      u * 2 ^ 54 + 1024 + 768 + p * 64 + a * 4 + 3 :=
    lor_eq_add_of_disjoint _ _ 2 (by omega) (by decide)
  rw [s5]
  rw [land_mask_48_12]
  have hre : u * 2 ^ 54 + 1024 + 768 + p * 64 + a * 4 + 3 =
      2 ^ 54 * u + (1792 + p * 64 + a * 4 + 3) := by ring
  rw [hre]
  rw [lor_add_mid _ u _ (by omega) (by omega) (by omega)]
  omega

/-- Arithmetic normal form of the spec's `map_4kb` descriptor formula. -/
theorem spec_map_4kb_descriptor_eq (pa a level : Nat) (ha : a < 8) (hpa : pa < 2 ^ 48) :
    spec_map_4kb_descriptor pa a level =
      pa / 2 ^ 12 * 2 ^ 12 +
        (2 ^ 54 * (if level = 1 then 1 else 0) +
          (64 * (if level = 0 then 1 else if level = 1 then 0 else 2) +
            (4 * a + 1795))) := by
  unfold spec_map_4kb_descriptor
  have e2 : a <<< 2 = a * 4 := Nat.shiftLeft_eq a 2
  rw [e2]
  set u := (if level = 1 then (1 : Nat) else 0) with hu
  have hule : u ≤ 1 := by rw [hu]; split <;> norm_num
  set p := (if level = 0 then (1 : Nat) else if level = 1 then 0 else 2) with hp
  have hple : p ≤ 2 := by
    rw [hp]
    by_cases h0 : level = 0 <;> by_cases h1 : level = 1 <;> simp [h0, h1]
  have e54 : u <<< 54 = u * 2 ^ 54 := Nat.shiftLeft_eq u 54
  have e6 : p <<< 6 = p * 64 := Nat.shiftLeft_eq p 6
  rw [e54, e6]
  rw [land_mask_64_12 pa (by omega)]
  have hq2 : pa / 2 ^ 12 * 2 ^ 12 < 2 ^ 48 := by omega
  have s0 : (pa / 2 ^ 12 * 2 ^ 12 : Nat) ||| u * 2 ^ 54 =
      u * 2 ^ 54 + pa / 2 ^ 12 * 2 ^ 12 := by
    rw [Nat.lor_comm]
    exact lor_eq_add_of_disjoint _ _ 48 (by omega) hq2
  rw [s0]
  have s1 : (u * 2 ^ 54 + pa / 2 ^ 12 * 2 ^ 12 : Nat) ||| 1 <<< 10 =
      u * 2 ^ 54 + pa / 2 ^ 12 * 2 ^ 12 + 1024 :=
    lor_eq_add_of_disjoint _ _ 11 (by omega) (by decide)
  rw [s1]
  have s2 : (u * 2 ^ 54 + pa / 2 ^ 12 * 2 ^ 12 + 1024 : Nat) ||| 3 <<< 8 =
      u * 2 ^ 54 + pa / 2 ^ 12 * 2 ^ 12 + 1024 + 768 :=
    lor_eq_add_of_disjoint _ _ 10 (by omega) (by decide)
  rw [s2]
  have s3 : (u * 2 ^ 54 + pa / 2 ^ 12 * 2 ^ 12 + 1024 + 768 : Nat) ||| p * 64 =
      u * 2 ^ 54 + pa / 2 ^ 12 * 2 ^ 12 + 1024 + 768 + p * 64 :=
    lor_eq_add_of_disjoint _ _ 8 (by omega) (by omega)
  rw [s3]
  have s4 : (u * 2 ^ 54 + pa / 2 ^ 12 * 2 ^ 12 + 1024 + 768 + p * 64 : Nat) ||| a * 4 =
      u * 2 ^ 54 + pa / 2 ^ 12 * 2 ^ 12 + 1024 + 768 + p * 64 + a * 4 :=
    lor_eq_add_of_disjoint _ _ 5 (by omega) (by omega)
  rw [s4]
  have s5 : (u * 2 ^ 54 + pa / 2 ^ 12 * 2 ^ 12 + 1024 + 768 + p * 64 + a * 4 : Nat) |||
      3 = u * 2 ^ 54 + pa / 2 ^ 12 * 2 ^ 12 + 1024 + 768 + p * 64 + a * 4 + 3 :=
    lor_eq_add_of_disjoint _ _ 2 (by omega) (by decide)
  rw [s5]
  omega

/-- Arithmetic normal form of the spec's `map_2mb` descriptor formula
(which sets UXN, bit 54). -/
theorem spec_map_2mb_descriptor_eq (pa a : Nat) (ha : a < 8) (hpa : pa < 2 ^ 48) :
    spec_map_2mb_descriptor pa a =
      pa / 2 ^ 12 * 2 ^ 12 + (2 ^ 54 + (4 * a + 1793)) := by
  unfold spec_map_2mb_descriptor
  have e2 : a <<< 2 = a * 4 := Nat.shiftLeft_eq a 2
  rw [e2]
  have e54 : (1 : Nat) <<< 54 = 2 ^ 54 := by norm_num [Nat.shiftLeft_eq]
  rw [e54]
  rw [land_mask_64_12 pa (by omega)]
  have hq2 : pa / 2 ^ 12 * 2 ^ 12 < 2 ^ 48 := by omega
  have s0 : (pa / 2 ^ 12 * 2 ^ 12 : Nat) ||| 2 ^ 54 =
      2 ^ 54 + pa / 2 ^ 12 * 2 ^ 12 := by
    rw [Nat.lor_comm]
    exact lor_eq_add_of_disjoint _ _ 48 (by omega) hq2
  rw [s0]
  have s1 : (2 ^ 54 + pa / 2 ^ 12 * 2 ^ 12 : Nat) ||| 1 <<< 10 =
      2 ^ 54 + pa / 2 ^ 12 * 2 ^ 12 + 1024 :=
    lor_eq_add_of_disjoint _ _ 11 (by omega) (by decide)
  rw [s1]
  have s2 : (2 ^ 54 + pa / 2 ^ 12 * 2 ^ 12 + 1024 : Nat) ||| 3 <<< 8 =
      2 ^ 54 + pa / 2 ^ 12 * 2 ^ 12 + 1024 + 768 :=
    lor_eq_add_of_disjoint _ _ 10 (by omega) (by decide)
  rw [s2]
  have s3 : (2 ^ 54 + pa / 2 ^ 12 * 2 ^ 12 + 1024 + 768 : Nat) ||| 0 <<< 6 =
      2 ^ 54 + pa / 2 ^ 12 * 2 ^ 12 + 1024 + 768 := Nat.or_zero _
  rw [s3]
  have s4 : (2 ^ 54 + pa / 2 ^ 12 * 2 ^ 12 + 1024 + 768 : Nat) ||| a * 4 =
      2 ^ 54 + pa / 2 ^ 12 * 2 ^ 12 + 1024 + 768 + a * 4 :=
    lor_eq_add_of_disjoint _ _ 5 (by omega) (by omega)
  rw [s4]
  have s5 : (2 ^ 54 + pa / 2 ^ 12 * 2 ^ 12 + 1024 + 768 + a * 4 : Nat) ||| 1 =
      2 ^ 54 + pa / 2 ^ 12 * 2 ^ 12 + 1024 + 768 + a * 4 + 1 :=
    lor_eq_add_of_disjoint _ _ 1 (by omega) (by decide)
  rw [s5]
  omega

/-- C3 (amended: the `mmu_map_2mb` block descriptor has UXN clear — the
code writes `0 << 54` where the spec formula has UXN set; the `mmu_map_4kb`
descriptor is exactly as the spec states): for physical addresses below
`2 ^ 48`, MAIR indices below 8 and levels 0-2, the 2 MiB block descriptor
equals the spec formula with the UXN bit cleared (or-ing UXN back in yields
the spec value exactly), the 4 KiB page descriptor equals the spec formula
verbatim, and the individual fields (UXN, PXN, AF, SH, AP, AttrIdx,
descriptor type, output address) decode as stated. -/
theorem c3_descriptor_bits (pa attr_idx level : Nat)
    (hpa : pa < 2 ^ 48) (hattr : attr_idx < 8) (hlevel : level < 3) :
    mmu_map_2mb_descriptor pa attr_idx ||| (1 <<< 54) =
      spec_map_2mb_descriptor pa attr_idx ∧
    (mmu_map_2mb_descriptor pa attr_idx >>> 54) &&& 1 = 0 ∧
    mmu_map_4kb_descriptor pa attr_idx level = spec_map_4kb_descriptor pa attr_idx level ∧
    (mmu_map_2mb_descriptor pa attr_idx >>> 53) &&& 1 = 0 ∧
    (mmu_map_2mb_descriptor pa attr_idx >>> 10) &&& 1 = 1 ∧
    (mmu_map_2mb_descriptor pa attr_idx >>> 8) &&& 3 = 3 ∧
    (mmu_map_2mb_descriptor pa attr_idx >>> 6) &&& 3 = 0 ∧
    (mmu_map_2mb_descriptor pa attr_idx >>> 2) &&& 7 = attr_idx ∧
    mmu_map_2mb_descriptor pa attr_idx &&& 3 = 1 ∧
    mmu_map_2mb_descriptor pa attr_idx &&& 0xFFFFFFFFF000 = pa / 2 ^ 12 * 2 ^ 12 ∧
    (mmu_map_4kb_descriptor pa attr_idx level >>> 54) &&& 1 =
      (if level = 1 then 1 else 0) ∧
    (mmu_map_4kb_descriptor pa attr_idx level >>> 53) &&& 1 = 0 ∧
    (mmu_map_4kb_descriptor pa attr_idx level >>> 10) &&& 1 = 1 ∧
    (mmu_map_4kb_descriptor pa attr_idx level >>> 8) &&& 3 = 3 ∧
    (mmu_map_4kb_descriptor pa attr_idx level >>> 6) &&& 3 = mmu_4kb_permission level ∧
    (mmu_map_4kb_descriptor pa attr_idx level >>> 2) &&& 7 = attr_idx ∧
    mmu_map_4kb_descriptor pa attr_idx level &&& 3 = 3 ∧
    mmu_map_4kb_descriptor pa attr_idx level &&& 0xFFFFFFFFF000 =
      pa / 2 ^ 12 * 2 ^ 12 := by
  have h2 := mmu_map_2mb_descriptor_eq pa attr_idx hattr
  have h4 := mmu_map_4kb_descriptor_eq pa attr_idx level hattr
  have hs2 := spec_map_2mb_descriptor_eq pa attr_idx hattr hpa
  have hs4 := spec_map_4kb_descriptor_eq pa attr_idx level hattr hpa
  have hmem : pa % 2 ^ 48 = pa := Nat.mod_eq_of_lt hpa
  rw [hmem] at h2 h4
  have hmlt : pa / 2 ^ 12 < 2 ^ 36 := by omega
  have land1 : ∀ x : Nat, x &&& 1 = x % 2 := fun x => by norm_num
  have land3 : ∀ x : Nat, x &&& 3 = x % 4 := fun x => by
    have h := land_pow2_sub_one x 2
    norm_num at h
    exact h
  have land7 : ∀ x : Nat, x &&& 7 = x % 8 := fun x => by
    have h := land_pow2_sub_one x 3
    norm_num at h
    exact h
  have hperm := mmu_4kb_permission_le level
  have hule : (if level = 1 then (1 : Nat) else 0) ≤ 1 := by split <;> norm_num
  have hpeq : mmu_4kb_permission level =
      (if level = 0 then 1 else if level = 1 then 0 else 2) := by
    interval_cases level <;> simp [mmu_4kb_permission]
  refine ⟨?_, ?_, ?_, ?_, ?_, ?_, ?_, ?_, ?_, ?_, ?_, ?_, ?_, ?_, ?_, ?_, ?_, ?_⟩
  · rw [h2, hs2]
    have e54 : (1 : Nat) <<< 54 = 2 ^ 54 := by decide
    rw [e54, Nat.lor_comm]
    rw [lor_eq_add_of_disjoint (2 ^ 54) _ 48 (by omega) (by omega)]
    omega
  · rw [h2, Nat.shiftRight_eq_div_pow, land1]
    omega
  · rw [h4, hs4, hpeq]
  · rw [h2, Nat.shiftRight_eq_div_pow, land1]
    omega
  · rw [h2, Nat.shiftRight_eq_div_pow, land1]
    omega
  · rw [h2, Nat.shiftRight_eq_div_pow, land3]
    omega
  · rw [h2, Nat.shiftRight_eq_div_pow, land3]
    omega
  · rw [h2, Nat.shiftRight_eq_div_pow, land7]
    omega
  · rw [h2, land3]
    omega
  · rw [h2, land_mask_48_12]
    omega
  · rw [h4, Nat.shiftRight_eq_div_pow, land1]
    omega
  · rw [h4, Nat.shiftRight_eq_div_pow, land1]
    omega
  · rw [h4, Nat.shiftRight_eq_div_pow, land1]
    omega
  · rw [h4, Nat.shiftRight_eq_div_pow, land3]
    omega
  · rw [h4, Nat.shiftRight_eq_div_pow, land3]
    omega
  · rw [h4, Nat.shiftRight_eq_div_pow, land7]
    omega
  · rw [h4, land3]
    omega
  · rw [h4, land_mask_48_12]
    omega

/-- C3 counterexample: at `pa = 0`, `attr_idx = 1` the installed 2 MiB
block descriptor differs from the spec's formula — the code leaves UXN
(bit 54) clear while the claimed formula sets it. -/
theorem c3_map_2mb_uxn_counterexample :
    mmu_map_2mb_descriptor 0 1 ≠ spec_map_2mb_descriptor 0 1 ∧
    (mmu_map_2mb_descriptor 0 1 >>> 54) &&& 1 = 0 ∧
    (spec_map_2mb_descriptor 0 1 >>> 54) &&& 1 = 1 := by
  refine ⟨by decide, by decide, by decide⟩


/-- Witness for C3: the amended theorem at `pa = 0x40000000`,
`attr_idx = 1`, `level = 1`. -/
theorem c3_descriptor_bits_witness :
    mmu_map_2mb_descriptor 0x40000000 1 ||| (1 <<< 54) =
      spec_map_2mb_descriptor 0x40000000 1 ∧
    (mmu_map_2mb_descriptor 0x40000000 1 >>> 54) &&& 1 = 0 ∧
    mmu_map_4kb_descriptor 0x40000000 1 1 = spec_map_4kb_descriptor 0x40000000 1 1 ∧
    (mmu_map_2mb_descriptor 0x40000000 1 >>> 53) &&& 1 = 0 ∧
    (mmu_map_2mb_descriptor 0x40000000 1 >>> 10) &&& 1 = 1 ∧
    (mmu_map_2mb_descriptor 0x40000000 1 >>> 8) &&& 3 = 3 ∧
    (mmu_map_2mb_descriptor 0x40000000 1 >>> 6) &&& 3 = 0 ∧
    (mmu_map_2mb_descriptor 0x40000000 1 >>> 2) &&& 7 = 1 ∧
    mmu_map_2mb_descriptor 0x40000000 1 &&& 3 = 1 ∧
    mmu_map_2mb_descriptor 0x40000000 1 &&& 0xFFFFFFFFF000 =
      0x40000000 / 2 ^ 12 * 2 ^ 12 ∧
    (mmu_map_4kb_descriptor 0x40000000 1 1 >>> 54) &&& 1 =
      (if (1 : Nat) = 1 then 1 else 0) ∧
    (mmu_map_4kb_descriptor 0x40000000 1 1 >>> 53) &&& 1 = 0 ∧
    (mmu_map_4kb_descriptor 0x40000000 1 1 >>> 10) &&& 1 = 1 ∧
    (mmu_map_4kb_descriptor 0x40000000 1 1 >>> 8) &&& 3 = 3 ∧
    (mmu_map_4kb_descriptor 0x40000000 1 1 >>> 6) &&& 3 = mmu_4kb_permission 1 ∧
    (mmu_map_4kb_descriptor 0x40000000 1 1 >>> 2) &&& 7 = 1 ∧
    mmu_map_4kb_descriptor 0x40000000 1 1 &&& 3 = 3 ∧
    mmu_map_4kb_descriptor 0x40000000 1 1 &&& 0xFFFFFFFFF000 =
      0x40000000 / 2 ^ 12 * 2 ^ 12 :=
  c3_descriptor_bits 0x40000000 1 1 (by norm_num) (by norm_num) (by norm_num)

/-! ### Claims C4 and C5 — `relocate_code` branch and ADRP rewriting -/

/-- C4: the claim (and the spec's instruction table) read the B.cond
immediate as a signed 19-bit word offset.  The code computes
`offset = ((int32_t)(instr >> 5) & 0x7FFFF); offset = (offset << 6) >> 6;`
— but `offset` is already below `2 ^ 19`, so shifting a 32-bit int left by
6 and arithmetically back by 6 is the identity, and the immediate is
zero-extended instead of sign-extended.  Concretely, for the word
`0x54FFFFE0` (`B.cond` with immediate `-1`) at word index 4 of a blob at
`src = 0x1000` of size `0x100`: the true target `0x100C` lies inside
`[src, src + size)`, so the claim requires the word to be copied to `dst`
unchanged; the code instead computes the target `src + 16 + 0x7FFFF*4`,
classifies it as external, and rewrites the word to `0x54FF7FE0`. -/
theorem c4_bcond_zero_extension_eval :
    (0x1000 : Int) ≤ spec_bcond_target 0x1000 4 0x54FFFFE0 ∧
    spec_bcond_target 0x1000 4 0x54FFFFE0 < 0x1000 + 0x100 ∧
    (relocate_code 0x2000 0x1000 (List.replicate 4 0 ++ [0x54FFFFE0])
        0x100 0 0 0).getD 4 0 = 0x54FF7FE0 ∧
    (0x54FF7FE0 : Nat) ≠ 0x54FFFFE0 := by
  refine ⟨by decide, by decide, by decide, by decide⟩

/-- C5: the claim requires the rewritten ADRP at index `i` to satisfy
`((dst + i*4) & ~0xFFF) + new_offset == dst_data + (P - src_data)` whenever
the page-relative target `P` lies inside the data blob.  The code decodes
the ADRP byte offset with `((int64_t)((immhi << 14) | (immlo << 12)) << 43)
>> 43`, which sign-extends the 33-bit offset from bit 20 and so truncates
the page offset to 9 bits.  Concretely, for the ADRP word `0x90001000`
(page offset `+512`, byte offset `+0x200000`) at index 0 of a blob at
`src = 0x100000` with `src_data = 0x300000`, `data_size = 0x1000`,
`dst = 0x700000`, `dst_data = 0x500000`: the target
`P = 0x300000` lies inside the data blob, but the code truncates the offset
to 0, believes the target is `0x100000` (outside), and copies the word
unchanged — the claimed equation fails
(`0x700000 + 0x200000 = 0x900000 ≠ 0x500000`). -/
theorem c5_adrp_truncation_eval :
    (0x300000 : Int) ≤ spec_adrp_target 0x100000 0 0x90001000 ∧
    spec_adrp_target 0x100000 0 0x90001000 < 0x300000 + 0x1000 ∧
    (relocate_code 0x700000 0x100000 [0x90001000] 4 0x300000 0x500000 0x1000).getD 0 0 =
      0x90001000 ∧
    ((0x700000 / 0x1000 * 0x1000 : Nat) : Int) + spec_adrp_offset 0x90001000 ≠
      (0x500000 : Int) + (spec_adrp_target 0x100000 0 0x90001000 - 0x300000) := by
  refine ⟨by decide, by decide, by decide, by decide⟩

end Craybond
